import Mathlib

/-!
Verification development for the EduChat repository.

Shallow embedding of:
* `EmotionalAdapter.detect_user_emotion` and `EmotionalAdapter.adapt_character_state`
  (src/character_personality_framework.py),
* `EnhancedEduChatDatabase.store_enhanced_memory` / `get_enhanced_memories`
  (src/enhanced_database_models.py),
* `EnhancedResponseGenerator.calculate_dynamic_response_tokens`
  (src/enhanced_response_generator.py),
* `AdvancedMemoryEngine._clean_memory_content` and the regex-extraction path
  (src/memory_system.py).

Python strings are modelled as `List Char`; Python floats appearing in these
functions are exact decimal constants, modelled as `ℚ`.
-/

namespace EduChat

/-- The apostrophe character (ASCII 39), used inside embedded string constants. -/
def apostrophe : Char := Char.ofNat 39

/-- `EmotionalState` enum from character_personality_framework.py. -/
inductive EmotionalState where
  | frustrated
  | excited
  | confused
  | confident
  | bored
  | engaged
  | overwhelmed
  | curious
deriving DecidableEq, Repr

/-- `frustration_words` list in `detect_user_emotion`
(`["confused", "don't understand", "frustrated", "stuck", "hard", "difficult"]`). -/
def frustration_words : List (List Char) :=
  ["confused".toList,
   "don".toList ++ [apostrophe] ++ "t understand".toList,
   "frustrated".toList,
   "stuck".toList,
   "hard".toList,
   "difficult".toList]

/-- `excitement_words` list in `detect_user_emotion`. -/
def excitement_words : List (List Char) :=
  ["awesome".toList, "cool".toList, "amazing".toList,
   "love this".toList, "great".toList, "excited".toList]

/-- `confusion_words` list in `detect_user_emotion`. -/
def confusion_words : List (List Char) :=
  ["what".toList, "how".toList, "why".toList,
   "explain".toList, "huh".toList, "?".toList]

/-- `boredom_words` list in `detect_user_emotion`. -/
def boredom_words : List (List Char) :=
  ["boring".toList, "tired".toList, "whatever".toList,
   "ok".toList, "sure".toList]

/-- `message_content.lower()` (the messages in the claims are ASCII, where
Python `str.lower` and `Char.toLower` agree). -/
def lowered (msg : List Char) : List Char := msg.map Char.toLower

/-- Boolean prefix test on character lists. -/
def isPrefixB : List Char → List Char → Bool
  | [], _ => true
  | _ :: _, [] => false
  | a :: as, b :: bs => a == b && isPrefixB as bs

/-- Python's substring membership `w in l`: `w` occurs contiguously in `l`. -/
def hasSubstr : List Char → List Char → Bool
  | l@(_ :: rest), w => isPrefixB w l || hasSubstr rest w
  | [], w => isPrefixB w []

/-- `EmotionalAdapter.detect_user_emotion` (the `user_history` parameter of
the source function is never read, so it is omitted; `content_lower` is
written out as `lowered msg`).  Returns the detected `EmotionalState`
together with the confidence score. -/
def detect_user_emotion (msg : List Char) : EmotionalState × ℚ :=
  if frustration_words.any (fun w => hasSubstr (lowered msg) w) then
    (.frustrated, 8/10)
  else if excitement_words.any (fun w => hasSubstr (lowered msg) w) then
    (.excited, 7/10)
  else if (lowered msg).count '?' > 1
      || confusion_words.any (fun w => hasSubstr (lowered msg) w) then
    (.confused, 6/10)
  else if boredom_words.any (fun w => hasSubstr (lowered msg) w) || msg.length < 10 then
    (.bored, 5/10)
  else
    (.engaged, 3/10)

/-- The message of the Aino scenario:
`"I'm really confused about Finnish grammar, can you explain it again?"`. -/
def ainoScenarioMessage : List Char :=
  "I".toList ++ [apostrophe] ++
    "m really confused about Finnish grammar, can you explain it again?".toList

/-- `DynamicState` dataclass from character_personality_framework.py, with its
field defaults (`focus_topic` and `adaptation_mode` are Python strings). -/
structure DynamicState where
  current_patience : ℚ := 1/2
  energy_level : ℚ := 7/10
  focus_topic : String := ""
  adaptation_mode : String := "balanced"
  detected_user_emotion : EmotionalState := .engaged
  adaptation_strength : ℚ := 1/2
  messages_this_session : ℤ := 0
  user_success_rate : ℚ := 1/2
  needs_encouragement : Bool := false
deriving Repr, DecidableEq

/-- `DynamicState()` with all defaults — the state every freshly created
character (including Aino from `CharacterFactory.create_aino_enhanced`)
starts with. -/
def initialDynamicState : DynamicState := {}

/-- One entry of the `adaptation_map` dict in `adapt_character_state`,
restricted to the three keys the function actually reads
(`patience_adjustment`, `energy_boost`, `adaptation_mode`).  The source dict
entries also carry advisory keys (`response_style`, `encouragement_boost`,
`explanation_simplification`, `humor_boost`, `enthusiasm_match`,
`example_increase`, `topic_switch`, `simplification`, `break_suggestion`)
that `adapt_character_state` never reads, so they are not modelled. -/
structure AdaptationEntry where
  patience_adjustment : Option ℚ
  energy_boost : Option ℚ
  adaptation_mode : Option String

/-- The `adaptation_map` dict of `EmotionalAdapter.adapt_character_state`:
`frustrated ↦ {patience +0.3, mode supportive}`,
`excited ↦ {energy +0.2, mode challenging}`,
`confused ↦ {patience +0.4, mode supportive}`,
`bored ↦ {energy +0.4, mode challenging}`,
`overwhelmed ↦ {patience +0.5, mode supportive}`; the remaining emotions
(`confident`, `engaged`, `curious`) have no entry. -/
def adaptation_map : EmotionalState → Option AdaptationEntry
  | .frustrated => some ⟨some (3/10), none, some "supportive"⟩
  | .excited => some ⟨none, some (2/10), some "challenging"⟩
  | .confused => some ⟨some (4/10), none, some "supportive"⟩
  | .bored => some ⟨none, some (4/10), some "challenging"⟩
  | .overwhelmed => some ⟨some (5/10), none, some "supportive"⟩
  | _ => none

/-- `EmotionalAdapter.adapt_character_state`, acting on
`character.dynamic_state` (the only part of the character it mutates; the
`conversation_context` parameter is never read).  If the detected emotion has
a map entry, it clamps `current_patience + Δ` and `energy_level + Δ` at `1.0`
with `min`, sets `adaptation_mode`, and records the detected emotion;
otherwise the state is returned unchanged. -/
def adapt_character_state (st : DynamicState) (user_emotion : EmotionalState) :
    DynamicState :=
  match adaptation_map user_emotion with
  | none => st
  | some a =>
    let st1 := match a.patience_adjustment with
      | some d => { st with current_patience := min 1 (st.current_patience + d) }
      | none => st
    let st2 := match a.energy_boost with
      | some d => { st1 with energy_level := min 1 (st1.energy_level + d) }
      | none => st1
    let st3 := match a.adaptation_mode with
      | some m => { st2 with adaptation_mode := m }
      | none => st2
    { st3 with detected_user_emotion := user_emotion }

/-! Helper lemmas about whitespace-only messages, used to settle the
fall-through behaviour of `detect_user_emotion`. -/

theorem toLower_of_whitespace {c : Char} (h : c.isWhitespace = true) :
    c.toLower = c := by
  simp only [Char.isWhitespace, Bool.or_eq_true, decide_eq_true_eq] at h
  rcases h with ((rfl | rfl) | rfl) | rfl <;> decide

theorem lowered_of_whitespace {msg : List Char}
    (h : ∀ c ∈ msg, c.isWhitespace = true) : lowered msg = msg := by
  induction msg with
  | nil => rfl
  | cons c rest ih =>
    simp only [lowered, List.map_cons, List.map] at *
    exact congrArg₂ (· :: ·) (toLower_of_whitespace (h c (by simp)))
      (ih fun x hx => h x (by simp [hx]))

theorem mem_of_isPrefixB : ∀ {w l : List Char}, isPrefixB w l = true →
    ∀ c ∈ w, c ∈ l := by
  intro w
  induction w with
  | nil => intro l _ c hc; cases hc
  | cons a as ih =>
    intro l hp c hc
    match l, hp with
    | b :: bs, hp =>
      simp only [isPrefixB, Bool.and_eq_true, beq_iff_eq] at hp
      rcases List.mem_cons.mp hc with rfl | hc
      · exact hp.1 ▸ List.mem_cons_self _ _
      · exact List.mem_cons_of_mem _ (ih hp.2 c hc)

theorem mem_of_hasSubstr : ∀ {l w : List Char}, hasSubstr l w = true →
    ∀ c ∈ w, c ∈ l := by
  intro l
  induction l with
  | nil =>
    intro w h c hc
    match w, h with
    | [], _ => cases hc
  | cons a rest ih =>
    intro w h c hc
    simp only [hasSubstr, Bool.or_eq_true] at h
    rcases h with h | h
    · exact mem_of_isPrefixB h c hc
    · exact List.mem_cons_of_mem _ (ih h c hc)

theorem hasSubstr_eq_false_of_whitespace {l w : List Char}
    (hl : ∀ c ∈ l, c.isWhitespace = true)
    (hw : (w.any fun c => !c.isWhitespace) = true) : hasSubstr l w = false := by
  rcases List.any_eq_true.mp hw with ⟨c, hc, hcw⟩
  simp only [Bool.not_eq_true', Bool.not_eq_false] at hcw
  cases h : hasSubstr l w with
  | false => rfl
  | true => exact absurd (hl c (mem_of_hasSubstr h c hc)) (by simp [hcw])

theorem any_hasSubstr_eq_false_of_whitespace {words : List (List Char)}
    {l : List Char} (hl : ∀ c ∈ l, c.isWhitespace = true)
    (hwords : ∀ w ∈ words, (w.any fun c => !c.isWhitespace) = true) :
    (words.any fun w => hasSubstr l w) = false := by
  rw [List.any_eq_false]
  intro w hw
  simp only [Bool.not_eq_true]
  exact hasSubstr_eq_false_of_whitespace hl (hwords w hw)

theorem count_questionmark_of_whitespace {l : List Char}
    (hl : ∀ c ∈ l, c.isWhitespace = true) : l.count '?' = 0 := by
  rw [List.count_eq_zero]
  intro hmem
  exact absurd (hl _ hmem) (by decide)

/-- Concrete states used by witnesses and counterexamples. -/
def boundedState : DynamicState := { current_patience := 0, energy_level := 1 }

/-- A state whose `current_patience` already exceeds the documented `[0,1]`
range. -/
def overRangeState : DynamicState := { current_patience := 2, energy_level := 0 }

/-- C2: every message containing a frustration keyword (case-insensitive
substring match against `frustration_words`) is detected as
`(FRUSTRATED, 0.8)`, regardless of any other keywords present — the
frustration rule is the first branch of the cascade. -/
theorem detect_frustration_keyword_priority (msg : List Char)
    (h : (frustration_words.any fun w => hasSubstr (lowered msg) w) = true) :
    detect_user_emotion msg = (.frustrated, 8/10) := by
  simp [detect_user_emotion, h]

/-- Witness for C2 at the message `"I am stuck, but this is awesome!"`
(which also contains an excitement keyword). -/
theorem detect_frustration_keyword_priority_witness :
    (frustration_words.any fun w =>
        hasSubstr (lowered "I am stuck, but this is awesome!".toList) w) = true ∧
    detect_user_emotion "I am stuck, but this is awesome!".toList = (.frustrated, 8/10) :=
  ⟨by decide, detect_frustration_keyword_priority _ (by decide)⟩

/-- C3 (counterexample): the empty message does not fall through to
`(ENGAGED, 0.3)`; its length `0 < 10` triggers the boredom length rule, so
`detect_user_emotion` returns `(BORED, 0.5)`. -/
theorem detect_empty_message_returns_bored :
    detect_user_emotion [] = (.bored, 5/10) ∧
    (EmotionalState.bored, (5:ℚ)/10).1 ≠ (EmotionalState.engaged, (3:ℚ)/10).1 :=
  ⟨rfl, fun h => EmotionalState.noConfusion h⟩

/-- C3 (amended): a whitespace-only message falls through every keyword rule;
if its length is at least 10 it reaches the default `(ENGAGED, 0.3)`, while
an empty or whitespace-only message shorter than 10 characters triggers the
boredom length rule and yields `(BORED, 0.5)`. -/
theorem detect_whitespace_only (msg : List Char)
    (h : ∀ c ∈ msg, c.isWhitespace = true) :
    (10 ≤ msg.length → detect_user_emotion msg = (.engaged, 3/10)) ∧
    (msg.length < 10 → detect_user_emotion msg = (.bored, 5/10)) := by
  have hlow : lowered msg = msg := lowered_of_whitespace h
  have hfr : (frustration_words.any fun w => hasSubstr (lowered msg) w) = false := by
    rw [hlow]; exact any_hasSubstr_eq_false_of_whitespace h (by decide)
  have hex : (excitement_words.any fun w => hasSubstr (lowered msg) w) = false := by
    rw [hlow]; exact any_hasSubstr_eq_false_of_whitespace h (by decide)
  have hco : (confusion_words.any fun w => hasSubstr (lowered msg) w) = false := by
    rw [hlow]; exact any_hasSubstr_eq_false_of_whitespace h (by decide)
  have hbo : (boredom_words.any fun w => hasSubstr (lowered msg) w) = false := by
    rw [hlow]; exact any_hasSubstr_eq_false_of_whitespace h (by decide)
  have hq : (lowered msg).count '?' = 0 := by
    rw [hlow]; exact count_questionmark_of_whitespace h
  constructor
  · intro hlen
    have hnl : ¬ msg.length < 10 := by omega
    simp [detect_user_emotion, hfr, hex, hco, hbo, hq, hnl]
  · intro hlen
    simp [detect_user_emotion, hfr, hex, hco, hbo, hq, hlen]

/-- Witness for C3 (amended) at a 12-space message and at a 3-space message. -/
theorem detect_whitespace_only_witness :
    (∀ c ∈ List.replicate 12 ' ', c.isWhitespace = true) ∧
    detect_user_emotion (List.replicate 12 ' ') = (.engaged, 3/10) ∧
    detect_user_emotion (List.replicate 3 ' ') = (.bored, 5/10) :=
  ⟨by decide,
   (detect_whitespace_only (List.replicate 12 ' ') (by decide)).1 (by decide),
   (detect_whitespace_only (List.replicate 3 ' ') (by decide)).2 (by decide)⟩

/-- C1 (counterexample): on the scenario message
`"I'm really confused about Finnish grammar, can you explain it again?"`,
`detect_user_emotion` does not return `CONFUSED`: the word `"confused"` is a
frustration keyword and the frustration rule fires first, returning
`FRUSTRATED`. -/
theorem aino_scenario_not_confused :
    (detect_user_emotion ainoScenarioMessage).1 = EmotionalState.frustrated ∧
    EmotionalState.frustrated ≠ EmotionalState.confused :=
  ⟨rfl, fun h => EmotionalState.noConfusion h⟩

/-- C1 (amended): on the scenario message `detect_user_emotion` returns
`(FRUSTRATED, 0.8)` via the frustration keyword rule (`"confused"` is in
`frustration_words`), and `adapt_character_state` applied to Aino's initial
dynamic state with that emotion applies the frustration table entry:
`current_patience` is increased by the frustration delta `0.3` (the clamp at
`1.0` is not hit, since `0.5 + 0.3 ≤ 1`) and `adaptation_mode` is set to
`"supportive"`. -/
theorem aino_scenario_frustrated :
    detect_user_emotion ainoScenarioMessage = (.frustrated, 8/10) ∧
    (adapt_character_state initialDynamicState .frustrated).current_patience
      = initialDynamicState.current_patience + 3/10 ∧
    (adapt_character_state initialDynamicState .frustrated).adaptation_mode
      = "supportive" ∧
    (adapt_character_state initialDynamicState .frustrated).detected_user_emotion
      = .frustrated := by
  refine ⟨rfl, ?_, rfl, rfl⟩
  show min 1 (1/2 + 3/10 : ℚ) = 1/2 + 3/10
  norm_num

/-- C9: emotions with no `adaptation_map` entry (`ENGAGED`, `CURIOUS`,
`CONFIDENT`) leave the whole `DynamicState` unchanged — including
`adaptation_mode` and `detected_user_emotion`. -/
theorem adapt_no_entry_is_noop (st : DynamicState) (e : EmotionalState)
    (h : e = .engaged ∨ e = .curious ∨ e = .confident) :
    adapt_character_state st e = st := by
  rcases h with rfl | rfl | rfl <;> rfl

/-- Witness for C9 at `ENGAGED` on the default initial state. -/
theorem adapt_no_entry_is_noop_witness :
    (EmotionalState.engaged = .engaged ∨ EmotionalState.engaged = .curious ∨
        EmotionalState.engaged = .confident) ∧
    adapt_character_state initialDynamicState .engaged = initialDynamicState :=
  ⟨Or.inl rfl, adapt_no_entry_is_noop initialDynamicState .engaged (Or.inl rfl)⟩

/-- Every delta stored in `adaptation_map` is nonnegative; helper for the
clamping invariant. -/
theorem clamp_bounds {x d : ℚ} (hx0 : 0 ≤ x) (hd : 0 ≤ d) :
    0 ≤ min 1 (x + d) ∧ min 1 (x + d) ≤ 1 :=
  ⟨le_min (by norm_num) (by linarith), min_le_left _ _⟩

/-- Single-step preservation of the `[0,1]` bounds by
`adapt_character_state`. -/
theorem adapt_preserves_bounds (st : DynamicState) (e : EmotionalState)
    (h1 : 0 ≤ st.current_patience) (h2 : st.current_patience ≤ 1)
    (h3 : 0 ≤ st.energy_level) (h4 : st.energy_level ≤ 1) :
    0 ≤ (adapt_character_state st e).current_patience ∧
    (adapt_character_state st e).current_patience ≤ 1 ∧
    0 ≤ (adapt_character_state st e).energy_level ∧
    (adapt_character_state st e).energy_level ≤ 1 := by
  cases e with
  | frustrated =>
    exact ⟨(clamp_bounds h1 (by norm_num)).1, (clamp_bounds h1 (by norm_num)).2, h3, h4⟩
  | excited =>
    exact ⟨h1, h2, (clamp_bounds h3 (by norm_num)).1, (clamp_bounds h3 (by norm_num)).2⟩
  | confused =>
    exact ⟨(clamp_bounds h1 (by norm_num)).1, (clamp_bounds h1 (by norm_num)).2, h3, h4⟩
  | confident => exact ⟨h1, h2, h3, h4⟩
  | bored =>
    exact ⟨h1, h2, (clamp_bounds h3 (by norm_num)).1, (clamp_bounds h3 (by norm_num)).2⟩
  | engaged => exact ⟨h1, h2, h3, h4⟩
  | overwhelmed =>
    exact ⟨(clamp_bounds h1 (by norm_num)).1, (clamp_bounds h1 (by norm_num)).2, h3, h4⟩
  | curious => exact ⟨h1, h2, h3, h4⟩

/-- C6: starting from any state with `current_patience` and `energy_level`
in `[0,1]`, after any number of (repeated) calls to `adapt_character_state`
with any emotion, both scalars still lie in `[0,1]`: the additive deltas
saturate at the `min 1` clamp instead of compounding past `1.0`. -/
theorem adapt_iterate_bounds (st : DynamicState) (e : EmotionalState) (n : ℕ)
    (h1 : 0 ≤ st.current_patience) (h2 : st.current_patience ≤ 1)
    (h3 : 0 ≤ st.energy_level) (h4 : st.energy_level ≤ 1) :
    0 ≤ ((fun s => adapt_character_state s e)^[n] st).current_patience ∧
    ((fun s => adapt_character_state s e)^[n] st).current_patience ≤ 1 ∧
    0 ≤ ((fun s => adapt_character_state s e)^[n] st).energy_level ∧
    ((fun s => adapt_character_state s e)^[n] st).energy_level ≤ 1 := by
  induction n generalizing st with
  | zero => exact ⟨h1, h2, h3, h4⟩
  | succ n ih =>
    rw [Function.iterate_succ_apply]
    obtain ⟨b1, b2, b3, b4⟩ := adapt_preserves_bounds st e h1 h2 h3 h4
    exact ih _ b1 b2 b3 b4

/-- Witness for C6: three repeated frustration adaptations from a state with
`current_patience = 0`, `energy_level = 1`. -/
theorem adapt_iterate_bounds_witness :
    0 ≤ ((fun s => adapt_character_state s .frustrated)^[3] boundedState).current_patience ∧
    ((fun s => adapt_character_state s .frustrated)^[3] boundedState).current_patience ≤ 1 ∧
    0 ≤ ((fun s => adapt_character_state s .frustrated)^[3] boundedState).energy_level ∧
    ((fun s => adapt_character_state s .frustrated)^[3] boundedState).energy_level ≤ 1 :=
  adapt_iterate_bounds boundedState .frustrated 3 (le_refl 0) zero_le_one
    zero_le_one (le_refl 1)

/-- C10 (counterexample): `adapt_character_state` is not monotone
non-decreasing on every `DynamicState`: from a state with
`current_patience = 2` (outside the documented range), the frustration entry
clamps `min 1 (2 + 0.3) = 1 < 2`, so `current_patience` decreases. -/
theorem adapt_not_monotone_over_range :
    (adapt_character_state overRangeState .frustrated).current_patience
      < overRangeState.current_patience := by
  show min 1 (2 + 3/10 : ℚ) < 2
  norm_num

/-- C10 (amended): for every state whose bounded scalars are at most `1`
(the range the clamp invariant maintains) and every emotion,
`adapt_character_state` never lowers `current_patience` or `energy_level`:
every table delta is positive and only an upper clamp is applied. -/
theorem adapt_monotone_in_range (st : DynamicState) (e : EmotionalState)
    (h1 : st.current_patience ≤ 1) (h2 : st.energy_level ≤ 1) :
    st.current_patience ≤ (adapt_character_state st e).current_patience ∧
    st.energy_level ≤ (adapt_character_state st e).energy_level := by
  cases e with
  | frustrated => exact ⟨le_min h1 (by linarith), le_refl _⟩
  | excited => exact ⟨le_refl _, le_min h2 (by linarith)⟩
  | confused => exact ⟨le_min h1 (by linarith), le_refl _⟩
  | confident => exact ⟨le_refl _, le_refl _⟩
  | bored => exact ⟨le_refl _, le_min h2 (by linarith)⟩
  | engaged => exact ⟨le_refl _, le_refl _⟩
  | overwhelmed => exact ⟨le_min h1 (by linarith), le_refl _⟩
  | curious => exact ⟨le_refl _, le_refl _⟩

/-- Witness for C10 (amended) at `EXCITED` on a state with
`current_patience = 0`, `energy_level = 1`. -/
theorem adapt_monotone_in_range_witness :
    boundedState.current_patience
      ≤ (adapt_character_state boundedState .excited).current_patience ∧
    boundedState.energy_level
      ≤ (adapt_character_state boundedState .excited).energy_level :=
  adapt_monotone_in_range boundedState .excited zero_le_one (le_refl 1)

/-! ## Enhanced memory table (src/enhanced_database_models.py)

The `enhanced_character_memory` sqlite table is modelled as a list of rows.
`id` is the uuid primary key (modelled as a natural supplied by the caller of
`store_enhanced_memory`, fresh in the table); `created_at`/`last_accessed`
are ISO-8601 timestamp strings in the source, which compare
lexicographically in step with time, so they are modelled as naturals. -/

/-- One row of the `enhanced_character_memory` table. -/
structure MemRecord where
  id : ℕ
  character_name : String
  user_id : String
  memory_type : String
  content : String
  importance_score : ℚ
  emotional_context : String
  confidence_score : ℚ
  created_at : ℕ
  last_accessed : ℕ
  access_count : ℕ
deriving Repr, DecidableEq

/-- The WHERE clause of both SELECTs in `get_enhanced_memories`:
`character_name = ? AND user_id = ? AND importance_score >= ?`. -/
def matchesQuery (character_name user_id : String) (min_importance : ℚ)
    (r : MemRecord) : Bool :=
  r.character_name == character_name && r.user_id == user_id &&
    decide (min_importance ≤ r.importance_score)

/-- The ORDER BY clause
`importance_score DESC, confidence_score DESC, last_accessed DESC`:
`descOrder a b` holds when row `a` may appear no later than row `b`. -/
def descOrder (a b : MemRecord) : Prop :=
  b.importance_score < a.importance_score ∨
    (a.importance_score = b.importance_score ∧
      (b.confidence_score < a.confidence_score ∨
        (a.confidence_score = b.confidence_score ∧
          b.last_accessed ≤ a.last_accessed)))

instance : DecidableRel descOrder := fun a b =>
  inferInstanceAs (Decidable (b.importance_score < a.importance_score ∨
    (a.importance_score = b.importance_score ∧
      (b.confidence_score < a.confidence_score ∨
        (a.confidence_score = b.confidence_score ∧
          b.last_accessed ≤ a.last_accessed)))))

instance : IsTotal MemRecord descOrder := by
  constructor
  intro a b
  rcases lt_trichotomy a.importance_score b.importance_score with h | h | h
  · exact Or.inr (Or.inl h)
  · rcases lt_trichotomy a.confidence_score b.confidence_score with g | g | g
    · exact Or.inr (Or.inr ⟨h.symm, Or.inl g⟩)
    · rcases Nat.le_total b.last_accessed a.last_accessed with k | k
      · exact Or.inl (Or.inr ⟨h, Or.inr ⟨g, k⟩⟩)
      · exact Or.inr (Or.inr ⟨h.symm, Or.inr ⟨g.symm, k⟩⟩)
    · exact Or.inl (Or.inr ⟨h, Or.inl g⟩)
  · exact Or.inl (Or.inl h)

instance : IsTrans MemRecord descOrder := by
  constructor
  intro a b c hab hbc
  rcases hab with h1 | ⟨e1, h1⟩ <;> rcases hbc with h2 | ⟨e2, h2⟩
  · exact Or.inl (h2.trans h1)
  · exact Or.inl (lt_of_eq_of_lt e2.symm h1)
  · exact Or.inl (lt_of_lt_of_eq h2 e1.symm)
  · refine Or.inr ⟨e1.trans e2, ?_⟩
    rcases h1 with g1 | ⟨f1, g1⟩ <;> rcases h2 with g2 | ⟨f2, g2⟩
    · exact Or.inl (g2.trans g1)
    · exact Or.inl (lt_of_eq_of_lt f2.symm g1)
    · exact Or.inl (lt_of_lt_of_eq g2 f1.symm)
    · exact Or.inr ⟨f1.trans f2, g2.trans g1⟩

/-- The row INSERTed by `store_enhanced_memory`: `created_at` and
`last_accessed` both set to `now`, `access_count = 0`. -/
def storedRecord (newId : ℕ)
    (character_name user_id memory_type content : String) (importance : ℚ)
    (emotional_context : String) (confidence : ℚ) (now : ℕ) : MemRecord :=
  { id := newId, character_name := character_name, user_id := user_id,
    memory_type := memory_type, content := content,
    importance_score := importance, emotional_context := emotional_context,
    confidence_score := confidence, created_at := now,
    last_accessed := now, access_count := 0 }

/-- `store_enhanced_memory`: INSERTs one fresh row.  `newId` models the
freshly generated `uuid4` (unique, so fresh in the table). -/
def store_enhanced_memory (db : List MemRecord) (newId : ℕ)
    (character_name user_id memory_type content : String) (importance : ℚ)
    (emotional_context : String) (confidence : ℚ) (now : ℕ) : List MemRecord :=
  db ++ [storedRecord newId character_name user_id memory_type content
          importance emotional_context confidence now]

/-- The first SELECT of `get_enhanced_memories`: filter by `matchesQuery`,
ORDER BY `descOrder` (modelled with insertion sort — sqlite returns some
`descOrder`-sorted permutation of the matching rows), then `LIMIT`. -/
def selectRows (db : List MemRecord) (character_name user_id : String)
    (limit : ℕ) (min_importance : ℚ) : List MemRecord :=
  (List.insertionSort descOrder
    (db.filter (matchesQuery character_name user_id min_importance))).take limit

/-- The UPDATE loop of `get_enhanced_memories`: rows whose id was selected
get `access_count` incremented by one and `last_accessed` set to `now`. -/
def bumpAccess (ids : List ℕ) (now : ℕ) (r : MemRecord) : MemRecord :=
  if ids.contains r.id then
    { r with access_count := r.access_count + 1, last_accessed := now }
  else r

/-- `get_enhanced_memories`: returns the rows read by the first SELECT
(pre-update values, as the source does; the source projects them to dicts,
the model keeps whole rows) together with the updated table.  The second,
identical SELECT of the source re-reads exactly the ids of the selected
rows. -/
def get_enhanced_memories (db : List MemRecord) (character_name user_id : String)
    (limit : ℕ) (min_importance : ℚ) (now : ℕ) :
    List MemRecord × List MemRecord :=
  (selectRows db character_name user_id limit min_importance,
   db.map (bumpAccess
     ((selectRows db character_name user_id limit min_importance).map (·.id)) now))

theorem bumpAccess_id (ids : List ℕ) (now : ℕ) (r : MemRecord) :
    (bumpAccess ids now r).id = r.id := by
  unfold bumpAccess; split <;> rfl

/-- The ordering key the spec claims for `get_enhanced_memories`, following
the spec's words: importance descending, then `last_accessed` descending
(no mention of `confidence_score`). -/
def specClaimedOrder (a b : MemRecord) : Prop :=
  b.importance_score < a.importance_score ∨
    (a.importance_score = b.importance_score ∧ b.last_accessed ≤ a.last_accessed)

instance : DecidableRel specClaimedOrder := fun a b =>
  inferInstanceAs (Decidable (b.importance_score < a.importance_score ∨
    (a.importance_score = b.importance_score ∧ b.last_accessed ≤ a.last_accessed)))

/-- Two rows with equal importance, where the later-accessed row has the
lower confidence: id 1, confidence 1, last_accessed 100 versus id 2,
confidence 9, last_accessed 50. -/
def lowConfLateRow : MemRecord :=
  { id := 1, character_name := "Aino", user_id := "u1", memory_type := "fact",
    content := "a", importance_score := 5, emotional_context := "neutral",
    confidence_score := 1, created_at := 0, last_accessed := 100,
    access_count := 0 }

/-- See `lowConfLateRow`. -/
def highConfEarlyRow : MemRecord :=
  { id := 2, character_name := "Aino", user_id := "u1", memory_type := "fact",
    content := "b", importance_score := 5, emotional_context := "neutral",
    confidence_score := 9, created_at := 0, last_accessed := 50,
    access_count := 0 }

/-- C4 (counterexample): the returned list is NOT sorted by
`(importance DESC, last_accessed DESC)`: with equal importance, the row with
the higher `confidence_score` comes first even though it was accessed
earlier, because the actual ORDER BY uses `confidence_score` as the second
key.  Here the result is `[highConfEarlyRow, lowConfLateRow]`, whose
`last_accessed` values increase. -/
theorem get_memories_not_sorted_by_last_accessed :
    (get_enhanced_memories [lowConfLateRow, highConfEarlyRow]
        "Aino" "u1" 10 3 200).1 = [highConfEarlyRow, lowConfLateRow] ∧
    ¬ (get_enhanced_memories [lowConfLateRow, highConfEarlyRow]
        "Aino" "u1" 10 3 200).1.Pairwise specClaimedOrder := by
  constructor
  · decide
  · decide

/-- C4 (amended): for every table state, character, user, limit and
min_importance `m`, `get_enhanced_memories` returns no row whose
`importance_score` is below `m`, and the returned list is sorted
non-increasingly by the lexicographic key
`(importance_score DESC, confidence_score DESC, last_accessed DESC)` —
the ORDER BY of the source query, whose second key is `confidence_score`,
not `last_accessed`. -/
theorem get_memories_filtered_and_sorted (db : List MemRecord)
    (character_name user_id : String) (limit : ℕ) (min_importance : ℚ)
    (now : ℕ) :
    (∀ r ∈ (get_enhanced_memories db character_name user_id limit
        min_importance now).1, min_importance ≤ r.importance_score) ∧
    (get_enhanced_memories db character_name user_id limit
        min_importance now).1.Pairwise descOrder := by
  constructor
  · intro r hr
    have hr1 : r ∈ List.insertionSort descOrder
        (db.filter (matchesQuery character_name user_id min_importance)) :=
      List.mem_of_mem_take hr
    have hr2 : r ∈ db.filter (matchesQuery character_name user_id min_importance) :=
      (List.perm_insertionSort descOrder _).mem_iff.mp hr1
    have hq := (List.mem_filter.mp hr2).2
    simp only [matchesQuery, Bool.and_eq_true, decide_eq_true_eq] at hq
    exact hq.2
  · exact List.Pairwise.sublist (List.take_sublist _ _)
      (List.sorted_insertionSort descOrder _)

/-- C5 (counterexample): the round-trip fails for `limit = 1 ≥ 1` when a
higher-importance row for the same `(character_name, user_id)` already
exists: storing a row of importance 5 behind an existing row of importance 9
and retrieving with `limit = 1`, `min_importance = 3 ≤ 5` does not return
the stored row, and its `access_count` stays 0 instead of being
incremented. -/
theorem store_get_roundtrip_crowded_out :
    (get_enhanced_memories
        (store_enhanced_memory
          [{ id := 1, character_name := "Aino", user_id := "u1",
             memory_type := "fact", content := "big", importance_score := 9,
             emotional_context := "neutral", confidence_score := 1,
             created_at := 0, last_accessed := 5, access_count := 0 }]
          2 "Aino" "u1" "fact" "small" 5 "neutral" 1 10)
        "Aino" "u1" 1 3 20).1.all (fun r => r.id ≠ 2) = true ∧
    (get_enhanced_memories
        (store_enhanced_memory
          [{ id := 1, character_name := "Aino", user_id := "u1",
             memory_type := "fact", content := "big", importance_score := 9,
             emotional_context := "neutral", confidence_score := 1,
             created_at := 0, last_accessed := 5, access_count := 0 }]
          2 "Aino" "u1" "fact" "small" 5 "neutral" 1 10)
        "Aino" "u1" 1 3 20).2.filter (fun r => r.id == 2)
      = [storedRecord 2 "Aino" "u1" "fact" "small" 5 "neutral" 1 10] := by
  constructor
  · decide
  · decide

/-- C5 (amended): storing a record with a fresh id and then retrieving for
the same `(character_name, user_id)` with `min_importance ≤` the record's
importance returns that record, and increments its stored `access_count`
by exactly 1 — provided `limit` is at least the number of rows matching the
query (with a smaller limit the new record can be crowded out by
higher-ranked rows). -/
theorem store_get_roundtrip (db : List MemRecord) (newId : ℕ)
    (character_name user_id memory_type content : String) (importance : ℚ)
    (emotional_context : String) (confidence : ℚ) (now1 : ℕ) (limit : ℕ)
    (min_importance : ℚ) (now2 : ℕ)
    (hfresh : ∀ r ∈ db, r.id ≠ newId)
    (hmin : min_importance ≤ importance)
    (hlimit : ((store_enhanced_memory db newId character_name user_id
        memory_type content importance emotional_context confidence
        now1).filter (matchesQuery character_name user_id
          min_importance)).length ≤ limit) :
    storedRecord newId character_name user_id memory_type content importance
        emotional_context confidence now1 ∈
      (get_enhanced_memories (store_enhanced_memory db newId character_name
          user_id memory_type content importance emotional_context confidence
          now1) character_name user_id limit min_importance now2).1 ∧
    (get_enhanced_memories (store_enhanced_memory db newId character_name
        user_id memory_type content importance emotional_context confidence
        now1) character_name user_id limit min_importance now2).2.filter
          (fun r => r.id == newId)
      = [{ storedRecord newId character_name user_id memory_type content
            importance emotional_context confidence now1 with
           access_count := 1, last_accessed := now2 }] := by
  set rec := storedRecord newId character_name user_id memory_type content
    importance emotional_context confidence now1 with hrec
  set db1 := store_enhanced_memory db newId character_name user_id
    memory_type content importance emotional_context confidence now1 with hdb1
  have hq : matchesQuery character_name user_id min_importance rec = true := by
    simp [matchesQuery, hrec, storedRecord, hmin]
  have hmem1 : rec ∈ db1 := by
    rw [hdb1]; exact List.mem_append_right _ (List.mem_singleton.mpr rfl)
  have hmemf : rec ∈ db1.filter (matchesQuery character_name user_id min_importance) :=
    List.mem_filter.mpr ⟨hmem1, hq⟩
  have hmemsort : rec ∈ List.insertionSort descOrder
      (db1.filter (matchesQuery character_name user_id min_importance)) :=
    (List.perm_insertionSort descOrder _).mem_iff.mpr hmemf
  have hlen : (List.insertionSort descOrder
      (db1.filter (matchesQuery character_name user_id min_importance))).length
        ≤ limit := by
    rw [(List.perm_insertionSort descOrder _).length_eq]
    exact hlimit
  have hsel : selectRows db1 character_name user_id limit min_importance
      = List.insertionSort descOrder
          (db1.filter (matchesQuery character_name user_id min_importance)) := by
    unfold selectRows
    exact List.take_of_length_le hlen
  have hmemsel : rec ∈ selectRows db1 character_name user_id limit min_importance := by
    rw [hsel]; exact hmemsort
  refine ⟨hmemsel, ?_⟩
  have hidmem : rec.id ∈ (selectRows db1 character_name user_id limit
      min_importance).map (·.id) := List.mem_map_of_mem _ hmemsel
  show (db1.map (bumpAccess _ now2)).filter (fun r => r.id == newId) = _
  rw [hdb1]
  show ((db ++ [rec]).map (bumpAccess _ now2)).filter (fun r => r.id == newId) = _
  rw [List.map_append, List.filter_append]
  have h1 : ((db.map (bumpAccess ((selectRows db1 character_name user_id limit
      min_importance).map (·.id)) now2)).filter (fun r => r.id == newId)) = [] := by
    rw [List.filter_eq_nil_iff]
    intro x hx
    obtain ⟨r, hr, rfl⟩ := List.mem_map.mp hx
    simp [bumpAccess_id, hfresh r hr]
  rw [h1, List.nil_append]
  have hcont : ((selectRows db1 character_name user_id limit
      min_importance).map (·.id)).contains rec.id = true := by
    simpa using hidmem
  show List.filter _ (List.map _ [rec]) = _
  rw [List.map_singleton, List.filter_singleton]
  have hbump : bumpAccess ((selectRows db1 character_name user_id limit
      min_importance).map (·.id)) now2 rec
      = { rec with access_count := 1, last_accessed := now2 } := by
    unfold bumpAccess
    rw [if_pos hcont]
    simp [hrec, storedRecord]
  rw [hbump]
  simp [hrec, storedRecord]

/-- Witness for C5 (amended): storing into an empty table and retrieving
with `limit = 10`, `min_importance = 3 ≤ 5`. -/
theorem store_get_roundtrip_witness :
    storedRecord 7 "Aino" "u1" "fact" "likes sauna" 5 "neutral" 1 10 ∈
      (get_enhanced_memories (store_enhanced_memory [] 7 "Aino" "u1" "fact"
          "likes sauna" 5 "neutral" 1 10) "Aino" "u1" 10 3 20).1 ∧
    (get_enhanced_memories (store_enhanced_memory [] 7 "Aino" "u1" "fact"
        "likes sauna" 5 "neutral" 1 10) "Aino" "u1" 10 3 20).2.filter
          (fun r => r.id == 7)
      = [{ storedRecord 7 "Aino" "u1" "fact" "likes sauna" 5 "neutral" 1 10 with
           access_count := 1, last_accessed := 20 }] :=
  store_get_roundtrip [] 7 "Aino" "u1" "fact" "likes sauna" 5 "neutral" 1 10
    10 3 20 (by decide) (by decide) (by decide)

/-! ## Dynamic token budget (src/enhanced_response_generator.py) -/

/-- Python's `str.split()` with no separator: split on runs of whitespace,
dropping empty chunks.  Worker with an accumulator holding the current word
reversed. -/
def splitWSAux : List Char → List Char → List (List Char)
  | [], acc => if acc.isEmpty then [] else [acc.reverse]
  | c :: rest, acc =>
    if c.isWhitespace then
      if acc.isEmpty then splitWSAux rest []
      else acc.reverse :: splitWSAux rest []
    else splitWSAux rest (c :: acc)

/-- Python's `s.split()`. -/
def pySplit (s : List Char) : List (List Char) := splitWSAux s []

/-- Python's `int(...)` on a rational: truncation toward zero. -/
def pyInt (q : ℚ) : ℤ := if 0 ≤ q then ⌊q⌋ else ⌈q⌉

/-- The fields of `character.core_attributes` that
`calculate_dynamic_response_tokens` reads (plus the character's name).
`patience_level` is the `PatientLevel` enum's `.value` (1–5 in the source,
any natural here). -/
structure CharacterProfile where
  name : String
  patience_level : ℕ
  formality_level : ℚ
  enthusiasm_level : ℚ

/-- The `character_base_needs` dict with fallback `.get(name, 150)`. -/
def character_base_needs (name : String) : ℚ :=
  if name = "Aino" then 180
  else if name = "Mase" then 120
  else if name = "Anna" then 160
  else if name = "Bee" then 170
  else 150

/-- The `educational_indicators` phrase list. -/
def educational_indicators : List (List Char) :=
  ["explain".toList, "how".toList, "why".toList, "what".toList,
   "teach".toList, "learn".toList, "show me".toList,
   "help me understand".toList, "tell me about".toList, "describe".toList,
   "clarify".toList, "difference between".toList, "compare".toList,
   "example".toList, "step by step".toList]

/-- The `patience_adjustments` dict with fallback `.get(level, 1.0)`. -/
def patience_adjustments (v : ℕ) : ℚ :=
  if v = 1 then 17/20
  else if v = 2 then 19/20
  else if v = 3 then 1
  else if v = 4 then 23/20
  else if v = 5 then 13/10
  else 1

/-- The final clamp `max(200, min(calculated_tokens, 700))`. -/
def clampTokens (x : ℤ) : ℤ := max 200 (min x 700)

/-- `EnhancedResponseGenerator.calculate_dynamic_response_tokens`.  The
`complete_context` parameter of the source is never read and is omitted;
`db_memories` is the retrieved-memory list (only its length and emptiness
are read).  The `try`-block never raises in the model (all attributes
exist), matching the source on well-formed characters. -/
def calculate_dynamic_response_tokens (ch : CharacterProfile)
    (user_message : List Char) (db_memories : List MemRecord) : ℤ :=
  let base_tokens := character_base_needs ch.name
  let word_count := (pySplit user_message).length
  let complexity_multiplier : ℚ :=
    if word_count > 25 then 8/5
    else if word_count > 15 then 13/10
    else if word_count > 8 then 11/10
    else 1
  let educational_score :=
    educational_indicators.countP (fun p => hasSubstr (lowered user_message) p)
  let educational_multiplier : ℚ := 1 + educational_score * (25/100)
  let patience_multiplier := patience_adjustments ch.patience_level
  let formality_multiplier : ℚ := 1 + (ch.formality_level - 3) * (5/100)
  let enthusiasm_multiplier : ℚ := 1 + ch.enthusiasm_level * (1/10)
  let personality_multiplier :=
    patience_multiplier * formality_multiplier * enthusiasm_multiplier
  let memory_tokens : ℕ :=
    if db_memories.isEmpty then 0 else min (db_memories.length * 25) 80
  let question_multiplier : ℚ :=
    if user_message.contains '?' then
      if hasSubstr (lowered user_message) "how to".toList
          || hasSubstr (lowered user_message) "step by step".toList then 13/10
      else if user_message.count '?' > 1 then 7/5
      else 1
    else 1
  let calculated_tokens := pyInt
    (base_tokens * complexity_multiplier * educational_multiplier *
      personality_multiplier * question_multiplier + memory_tokens)
  clampTokens calculated_tokens

theorem clampTokens_bounds (x : ℤ) : 200 ≤ clampTokens x ∧ clampTokens x ≤ 700 :=
  ⟨le_max_left _ _, max_le (by norm_num) (min_le_right _ _)⟩

/-- C7: for every character profile, user message (including the empty
message) and retrieved-memory list (including the empty list),
`calculate_dynamic_response_tokens` returns an integer in `[200, 700]` —
the final line clamps with `max(200, min(·, 700))`. -/
theorem calculate_tokens_in_range (ch : CharacterProfile)
    (user_message : List Char) (db_memories : List MemRecord) :
    200 ≤ calculate_dynamic_response_tokens ch user_message db_memories ∧
    calculate_dynamic_response_tokens ch user_message db_memories ≤ 700 := by
  unfold calculate_dynamic_response_tokens
  exact clampTokens_bounds _

/-! ## Memory content cleaning (src/memory_system.py) -/

/-- `' '.join(words)`: concatenate words with single spaces between. -/
def joinSpace : List (List Char) → List Char
  | [] => []
  | [w] => w
  | w :: ws => w ++ ' ' :: joinSpace ws

/-- `AdvancedMemoryEngine._clean_memory_content`:
`content = ' '.join(content.split())`, then if the result is longer than 200
characters it is cut to `content[:200] + "..."`. -/
def clean_memory_content (content : List Char) : List Char :=
  let c := joinSpace (pySplit content)
  if 200 < c.length then c.take 200 ++ "...".toList else c

/-- No two adjacent characters are both whitespace — the shape
`' '.join(s.split())` guarantees (internal whitespace runs collapsed). -/
def noAdjacentWhitespace (l : List Char) : Prop :=
  l.Chain' (fun a b => ¬(a.isWhitespace = true ∧ b.isWhitespace = true))

/-- Modelled from the source regex `r"I (like|love|enjoy|prefer) (.+)"` of
`extract_memories_from_conversation`, restricted to single-line messages
that start with `"I like "` and continue with at least one character: on
such a message `re.finditer` yields exactly one match whose `group(0)` is
the whole message (the greedy `.+` runs to the end of the line), and the
content stored in the produced memory record is
`_clean_memory_content(group(0))`.  On other messages the restricted model
reports no match. -/
def extractedPreferenceContent (msg : List Char) : Option (List Char) :=
  if isPrefixB "I like ".toList msg = true ∧ 7 < msg.length ∧
      msg.contains '\n' = false then
    some (clean_memory_content msg)
  else none

theorem splitWSAux_words_nonws : ∀ (l acc : List Char),
    (∀ c ∈ acc, c.isWhitespace = false) →
    ∀ w ∈ splitWSAux l acc, w ≠ [] ∧ ∀ c ∈ w, c.isWhitespace = false := by
  intro l
  induction l with
  | nil =>
    intro acc hacc w hw
    simp only [splitWSAux] at hw
    split at hw
    · cases hw
    · next hne =>
      rcases List.mem_singleton.mp hw with rfl
      refine ⟨?_, ?_⟩
      · simpa using fun h => hne (by simp [h, List.isEmpty_iff])
      · intro c hc
        exact hacc c (List.mem_reverse.mp hc)
  | cons a rest ih =>
    intro acc hacc w hw
    simp only [splitWSAux] at hw
    split at hw
    · next hws =>
      split at hw
      · exact ih [] (by simp) w hw
      · next hne =>
        rcases List.mem_cons.mp hw with rfl | hw2
        · refine ⟨?_, ?_⟩
          · simpa using fun h => hne (by simp [h, List.isEmpty_iff])
          · intro c hc
            exact hacc c (List.mem_reverse.mp hc)
        · exact ih [] (by simp) w hw2
    · next hws =>
      refine ih (a :: acc) ?_ w hw
      intro c hc
      rcases List.mem_cons.mp hc with rfl | hc2
      · simpa using hws
      · exact hacc c hc2

theorem pySplit_words_nonws (s : List Char) :
    ∀ w ∈ pySplit s, w ≠ [] ∧ ∀ c ∈ w, c.isWhitespace = false :=
  splitWSAux_words_nonws s [] (by simp)

theorem noAdj_of_all_nonws {l : List Char}
    (h : ∀ c ∈ l, c.isWhitespace = false) : noAdjacentWhitespace l := by
  induction l with
  | nil => exact List.chain'_nil
  | cons a t ih =>
    cases t with
    | nil => exact List.chain'_singleton a
    | cons b t2 =>
      rw [noAdjacentWhitespace, List.chain'_cons]
      refine ⟨?_, ih fun c hc => h c (List.mem_cons_of_mem a hc)⟩
      rintro ⟨-, hb⟩
      rw [h b (by simp)] at hb
      cases hb

theorem joinSpace_headChar_nonws (ws : List (List Char))
    (hws : ∀ w ∈ ws, w ≠ [] ∧ ∀ c ∈ w, c.isWhitespace = false) :
    ∀ c ∈ (joinSpace ws).head?, c.isWhitespace = false := by
  cases ws with
  | nil => intro c hc; cases hc
  | cons w rest =>
    obtain ⟨hne, hnonws⟩ := hws w (by simp)
    cases w with
    | nil => exact absurd rfl hne
    | cons a w' =>
      cases rest with
      | nil =>
        intro c hc
        rw [show joinSpace [a :: w'] = a :: w' from rfl] at hc
        simp only [List.head?_cons, Option.mem_some_iff] at hc
        subst hc
        exact hnonws _ (by simp)
      | cons w2 rest2 =>
        intro c hc
        rw [show joinSpace ((a :: w') :: w2 :: rest2)
          = (a :: w') ++ ' ' :: joinSpace (w2 :: rest2) from rfl] at hc
        simp only [List.cons_append, List.head?_cons, Option.mem_some_iff] at hc
        subst hc
        exact hnonws _ (by simp)

theorem joinSpace_noAdj : ∀ (ws : List (List Char)),
    (∀ w ∈ ws, w ≠ [] ∧ ∀ c ∈ w, c.isWhitespace = false) →
    noAdjacentWhitespace (joinSpace ws) := by
  intro ws
  induction ws with
  | nil => exact fun _ => List.chain'_nil
  | cons w rest ih =>
    intro hws
    obtain ⟨hne, hnonws⟩ := hws w (by simp)
    cases rest with
    | nil => exact noAdj_of_all_nonws hnonws
    | cons w2 rest2 =>
      have hrest : ∀ v ∈ w2 :: rest2, v ≠ [] ∧ ∀ c ∈ v, c.isWhitespace = false :=
        fun v hv => hws v (List.mem_cons_of_mem w hv)
      rw [show joinSpace (w :: w2 :: rest2) = w ++ ' ' :: joinSpace (w2 :: rest2)
        from rfl]
      rw [noAdjacentWhitespace, List.chain'_append]
      refine ⟨noAdj_of_all_nonws hnonws, ?_, ?_⟩
      · rw [List.chain'_cons']
        refine ⟨?_, ih hrest⟩
        intro y hy
        have := joinSpace_headChar_nonws (w2 :: rest2) hrest y hy
        rintro ⟨-, hy2⟩
        rw [this] at hy2
        cases hy2
      · intro x hx y hy
        simp only [List.head?_cons, Option.mem_some_iff] at hy
        subst hy
        have := hnonws x (List.mem_of_mem_getLast? hx)
        rintro ⟨hx2, -⟩
        rw [this] at hx2
        cases hx2

/-- The content of the correction record of
`extract_memories_from_conversation`
(`f"Corrected user about: {user_message[:50]}..."`), produced whenever the
character response contains `"actually"` or `"correct"`; it does NOT pass
through `_clean_memory_content`. -/
def correctionContent (user_message : List Char) : List Char :=
  "Corrected user about: ".toList ++ user_message.take 50 ++ "...".toList

/-- The content of the achievement ("user shows understanding") record of
`extract_memories_from_conversation`
(`f"User understood: {character_response[:50]}..."`), produced whenever the
user message contains one of `'i understand', 'makes sense', 'i see',
'thank you'`; it does NOT pass through `_clean_memory_content`. -/
def understandingContent (character_response : List Char) : List Char :=
  "User understood: ".toList ++ character_response.take 50 ++ "...".toList

/-- Boolean check for two adjacent whitespace characters. -/
def hasAdjacentWhitespaceB : List Char → Bool
  | a :: b :: rest =>
    (a.isWhitespace && b.isWhitespace) || hasAdjacentWhitespaceB (b :: rest)
  | _ => false

theorem not_noAdjacentWhitespace_of_hasAdjacentB : ∀ {l : List Char},
    hasAdjacentWhitespaceB l = true → ¬ noAdjacentWhitespace l := by
  intro l
  induction l with
  | nil => intro h; cases h
  | cons a t ih =>
    cases t with
    | nil => intro h; cases h
    | cons b t2 =>
      intro h hchain
      rw [noAdjacentWhitespace, List.chain'_cons] at hchain
      simp only [hasAdjacentWhitespaceB, Bool.or_eq_true, Bool.and_eq_true] at h
      rcases h with ⟨h1, h2⟩ | h
      · exact hchain.1 ⟨h1, h2⟩
      · exact ih h hchain.2

/-- Helper: `_clean_memory_content` output is whitespace-normalized — no two
adjacent whitespace characters remain — and its length never exceeds 203
characters: content longer than 200 characters is truncated to 200 and
`"..."` is appended. -/
theorem clean_memory_content_normalized (content : List Char) :
    (clean_memory_content content).length ≤ 203 ∧
    noAdjacentWhitespace (clean_memory_content content) := by
  simp only [clean_memory_content]
  have hwords := pySplit_words_nonws content
  have hjoin : noAdjacentWhitespace (joinSpace (pySplit content)) :=
    joinSpace_noAdj _ hwords
  split
  · next hlong =>
    constructor
    · rw [List.length_append, List.length_take]
      simp
    · rw [noAdjacentWhitespace, List.chain'_append]
      have hdots : List.Chain'
          (fun a b => ¬(a.isWhitespace = true ∧ b.isWhitespace = true))
          "...".toList := by
        rw [show "...".toList = ['.', '.', '.'] from rfl]
        refine List.chain'_cons.mpr ⟨?_, List.chain'_cons.mpr
          ⟨?_, List.chain'_singleton _⟩⟩ <;>
          (rintro ⟨h1, -⟩; exact absurd h1 (by decide))
      refine ⟨List.Chain'.take hjoin 200, hdots, ?_⟩
      intro x hx y hy
      simp only [show "...".toList = ['.', '.', '.'] from rfl,
        List.head?_cons, Option.mem_some_iff] at hy
      subst hy
      rintro ⟨-, hy2⟩
      cases hy2
  · next hshort =>
    exact ⟨by omega, hjoin⟩

set_option maxRecDepth 40000 in
/-- C8 (counterexample): two records produced by
`extract_memories_from_conversation` violate the claim.  (i) Length: for the
257-character message `"I like " ++ 250 × 'a'` the regex path stores the
normalized match truncated to 200 characters with `"..."` appended — 203
characters, exceeding 200.  (ii) Normalization: with a character response
containing `"actually"` (so the correction branch fires), the correction
record for the user message `"It is  hard"` (double space) copies the first
50 characters of the message verbatim — `_clean_memory_content` is bypassed
and the double space survives, so the stored content is not
whitespace-normalized. -/
theorem extraction_records_violate_claim :
    extractedPreferenceContent ("I like ".toList ++ List.replicate 250 'a')
      = some (clean_memory_content ("I like ".toList ++ List.replicate 250 'a')) ∧
    (clean_memory_content ("I like ".toList ++ List.replicate 250 'a')).length
      = 203 ∧ 200 < 203 ∧
    hasSubstr (lowered "Actually, that is not right.".toList)
      "actually".toList = true ∧
    ¬ noAdjacentWhitespace (correctionContent "It is  hard".toList) := by
  refine ⟨?_, ?_, by decide, by decide, ?_⟩
  · rw [extractedPreferenceContent, if_pos (by refine ⟨by decide, by decide, by decide⟩)]
  · decide
  · exact not_noAdjacentWhitespace_of_hasAdjacentB (by decide)

/-- C8 (amended): every memory record produced by the extraction path has
content of length at most 203 characters, and regex-path records are
whitespace-normalized.  The regex path stores `_clean_memory_content` of the
match `m`: no two adjacent whitespace characters remain, and the length is
at most 203 (content longer than 200 characters is truncated to 200 and
`"..."` is appended).  The correction and achievement records bypass
`_clean_memory_content`: their content is a fixed prefix plus the first 50
characters of the user message / character response plus `"..."` — at most
75 and 70 characters respectively (hence also at most 203) — and it copies
any whitespace runs of that prefix verbatim, so it need not be
whitespace-normalized. -/
theorem extraction_path_content_bounds
    (m user_message character_response : List Char) :
    ((clean_memory_content m).length ≤ 203 ∧
      noAdjacentWhitespace (clean_memory_content m)) ∧
    ((correctionContent user_message).length ≤ 75 ∧
      (correctionContent user_message).length ≤ 203) ∧
    ((understandingContent character_response).length ≤ 70 ∧
      (understandingContent character_response).length ≤ 203) := by
  refine ⟨clean_memory_content_normalized m, ⟨?_, ?_⟩, ⟨?_, ?_⟩⟩ <;>
    simp [correctionContent, understandingContent, List.length_take,
      List.length_append]

end EduChat
